import Mathlib

/-!
Verification of the qaBotHandT frontend (a Next.js document question-answering
client) against its natural-language specification.  The development shallowly
embeds the browser-facing logic: browser local storage is an association list,
the API proxy route handlers are pure functions from the incoming form data and
a single backend outcome to the response they produce together with the list of
backend requests they issue, and the React component flows are modeled as
explicit action traces or store transformers.
-/

namespace QaBot

/-! ## Browser local storage

`localStorage` is modeled as an association list from keys to string values.
`setItem` replaces any previous binding for the key (last write wins), and
`getItem` returns the current binding. -/

def Store := List (String × String)

def Store.getItem (s : Store) (k : String) : Option String :=
  match s with
  | [] => none
  | (k', v) :: rest => if k' = k then some v else Store.getItem rest k

def Store.setItem (s : Store) (k v : String) : Store :=
  match s with
  | [] => [(k, v)]
  | (k', v') :: rest =>
      if k' = k then (k, v) :: rest else (k', v') :: Store.setItem rest k v

def Store.removeItem (s : Store) (k : String) : Store :=
  match s with
  | [] => []
  | (k', v') :: rest =>
      if k' = k then Store.removeItem rest k else (k', v') :: Store.removeItem rest k

/-! ## Sidebar: deleteConversation

From `Sidebar` in `FileUploadPanel.tsx`: after the user confirms, the handler
runs `localStorage.removeItem('chat_' + collectionId)` and nothing else touches
storage. -/

def deleteConversation (collectionId : String) (confirmed : Bool) (store : Store) :
    Store :=
  if confirmed then store.removeItem ("chat_" ++ collectionId) else store

/-! ## JSON values and JavaScript coercions

The proxy handlers inspect the backend's JSON body field by field
(`data.detail`, `data.answer`, ...) and use JavaScript truthiness
(`data.detail || 'Failed to get answer'`).  `Json` is the value space of a
parsed body; `jsField` is property access (`undefined`, i.e. `none`, on a
missing field or a non-object receiver); `Json.truthy` is JavaScript
truthiness; `jsOrStr` is `x || 'fallback'` for a possibly absent field. -/

inductive Json where
  | null : Json
  | bool : Bool → Json
  | num : Int → Json
  | str : String → Json
  | arr : List Json → Json
  | obj : List (String × Json) → Json

def jsLookup (fields : List (String × Json)) (k : String) : Option Json :=
  match fields with
  | [] => none
  | (k', v) :: rest => if k' = k then some v else jsLookup rest k

def jsField (j : Json) (k : String) : Option Json :=
  match j with
  | .obj fields => jsLookup fields k
  | _ => none

def Json.truthy : Json → Bool
  | .null => false
  | .bool b => b
  | .num n => n ≠ 0
  | .str s => s ≠ ""
  | .arr _ => true
  | .obj _ => true

def jsOr (v : Option Json) (fallback : Json) : Json :=
  match v with
  | some j => if j.truthy then j else fallback
  | none => fallback

def jsOrStr (v : Option Json) (fallback : String) : Json :=
  jsOr v (.str fallback)

/-- JavaScript string coercion, as used by template literals
(`` `... ${data.chunks_indexed} ...` ``).  An absent field coerces to
`"undefined"`. -/
def jsToDisplay : Option Json → String
  | none => "undefined"
  | some .null => "null"
  | some (.bool true) => "true"
  | some (.bool false) => "false"
  | some (.num n) => toString n
  | some (.str s) => s
  | some (.arr _) => ""
  | some (.obj _) => "[object Object]"

/-- A field entry is included in a `NextResponse.json({...})` body only when the
value is defined; `JSON.stringify` drops `undefined` properties. -/
def optField (k : String) (v : Option Json) : List (String × Json) :=
  match v with
  | some j => [(k, j)]
  | none => []

/-! ## Form data and the backend fetch

`FormValue` is what `formData.get` can return when the field is present: a
string or a `File` (identified here by its name).  `FetchOutcome` is the fate
of the handler's single `fetch` of the backend: the fetch itself rejected, or
the backend responded with an `ok` flag, a status code, and a body whose
`response.json()` either parsed (`.ok`) or threw (`.error`). -/

inductive FormValue where
  | str : String → FormValue
  | file : String → FormValue

/-- `value && typeof value === 'string'`: the guard the chat and process
handlers place on form fields — present, a string, and non-empty (the empty
string is falsy in JavaScript). -/
def validStringField : Option FormValue → Option String
  | some (.str s) => if s = "" then none else some s
  | _ => none

/-- `file && file instanceof File`, the upload handler's guard. -/
def validFileField : Option FormValue → Option String
  | some (.file name) => some name
  | _ => none

inductive FetchOutcome where
  | threw : String → FetchOutcome
  | responded : Bool → Nat → Except String Json → FetchOutcome

/-- One backend request, as the list of form fields (or URL parts) it carries. -/
def BackendCall := List (String × String)

/-- What a proxy route handler produces: the HTTP status and JSON body of the
response, plus the backend calls it issued while computing it. -/
structure ProxyResult where
  status : Nat
  body : Json
  sent : List BackendCall

/-! ## /api/chat (POST) — `src/unnamed/part_002` -/

def chatPOST (question collectionId : Option FormValue) (backend : FetchOutcome) :
    ProxyResult :=
  match validStringField question with
  | none => ⟨400, .obj [("error", .str "Question is required")], []⟩
  | some q =>
    match validStringField collectionId with
    | none => ⟨400, .obj [("error", .str "Collection ID is required")], []⟩
    | some cid =>
      let sent := [[("question", q), ("collection_id", cid)]]
      match backend with
      | .threw msg => ⟨500, .obj [("error", .str msg)], sent⟩
      | .responded ok status body =>
        match body with
        | .error msg => ⟨500, .obj [("error", .str msg)], sent⟩
        | .ok data =>
          if ok then
            ⟨200,
             .obj (optField "answer" (jsField data "answer") ++
                   optField "thread_id" (jsField data "thread_id")),
             sent⟩
          else
            ⟨status,
             .obj [("error", jsOrStr (jsField data "detail") "Failed to get answer")],
             sent⟩

/-- Form value coercion used when the legacy chat handler appends
`provider as string` to the backend form data. -/
def formValueText : FormValue → String
  | .str s => s
  | .file name => name

/-- `formData.get('provider') || 'gemini'`: JavaScript `||` on a form value
(`null` and the empty string are falsy; a `File` is truthy). -/
def formValueOr (v : Option FormValue) (fallback : String) : FormValue :=
  match v with
  | some (.str s) => if s = "" then .str fallback else .str s
  | some (.file name) => .file name
  | none => .str fallback

/-! ## /api/chat (POST), legacy variant — `src/unnamed/part_003` -/

def chatLegacyPOST (question collectionId provider model : Option FormValue)
    (backend : FetchOutcome) : ProxyResult :=
  match validStringField question with
  | none => ⟨400, .obj [("error", .str "Question is required")], []⟩
  | some q =>
    match validStringField collectionId with
    | none => ⟨400, .obj [("error", .str "Collection ID is required")], []⟩
    | some cid =>
      let sent := [[("question", q), ("collection_id", cid),
                    ("provider", formValueText (formValueOr provider "gemini")),
                    ("model", formValueText (formValueOr model "gemini-1.5-flash"))]]
      match backend with
      | .threw msg => ⟨500, .obj [("error", .str msg)], sent⟩
      | .responded ok status body =>
        match body with
        | .error msg => ⟨500, .obj [("error", .str msg)], sent⟩
        | .ok data =>
          if ok then
            ⟨200,
             .obj (optField "answer" (jsField data "answer") ++
                   optField "thread_id" (jsField data "thread_id")),
             sent⟩
          else
            ⟨status,
             .obj [("error", jsOrStr (jsField data "detail") "Failed to get answer")],
             sent⟩

/-! ## /api/process (POST) — `src/frontend/src/app/api/process/route.ts` -/

def processPOST (collectionId : Option FormValue) (backend : FetchOutcome) :
    ProxyResult :=
  match validStringField collectionId with
  | none => ⟨400, .obj [("message", .str "Collection ID is required")], []⟩
  | some cid =>
    let sent := [[("collection_id", cid)]]
    match backend with
    | .threw msg => ⟨500, .obj [("message", .str msg)], sent⟩
    | .responded ok status body =>
      match body with
      | .error msg => ⟨500, .obj [("message", .str msg)], sent⟩
      | .ok data =>
        if ok then
          ⟨200,
           .obj ([("message",
                   jsOrStr (jsField data "message")
                     ("Document processed! " ++
                      jsToDisplay (jsField data "chunks_indexed") ++
                      " chunks indexed."))] ++
                 optField "collection_id" (jsField data "collection_id") ++
                 optField "chunks_indexed" (jsField data "chunks_indexed") ++
                 optField "filename" (jsField data "filename")),
           sent⟩
        else
          ⟨status,
           .obj [("message", jsOrStr (jsField data "detail") "Failed to process file")],
           sent⟩

/-! ## /api/upload (POST) — `src/unnamed/part_006` -/

def uploadPOST (file collectionId : Option FormValue) (backend : FetchOutcome) :
    ProxyResult :=
  match validFileField file with
  | none => ⟨400, .obj [("message", .str "No file provided")], []⟩
  | some fileName =>
    let sent := [[("file", fileName)] ++
      (match validStringField collectionId with
       | some cid => [("collection_id", cid)]
       | none => [])]
    match backend with
    | .threw msg => ⟨500, .obj [("message", .str msg)], sent⟩
    | .responded ok status body =>
      match body with
      | .error msg => ⟨500, .obj [("message", .str msg)], sent⟩
      | .ok data =>
        if ok then
          ⟨200,
           .obj ([("message",
                   jsOrStr (jsField data "message") "File uploaded successfully!")] ++
                 optField "collection_id" (jsField data "collection_id") ++
                 optField "filename" (jsField data "filename") ++
                 optField "chunks_indexed" (jsField data "chunks_indexed")),
           sent⟩
        else
          ⟨status,
           .obj [("message", jsOrStr (jsField data "detail") "Failed to upload file")],
           sent⟩

/-! ## /api/chat/history/[collectionId] (GET) —
`src/frontend/src/app/api/chat/history/[collectionId]/route.ts` and
`src/unnamed/part_004` -/

/-- The fixed fallback body `{ messages: [], collection_id: collectionId }`. -/
def emptyHistoryBody (collectionId : String) : Json :=
  .obj [("messages", .arr []), ("collection_id", .str collectionId)]

def historyGET (collectionId : String) (backend : FetchOutcome) : ProxyResult :=
  if collectionId = "" then
    ⟨400, .obj [("error", .str "Collection ID is required")], []⟩
  else
    let sent := [[("url", "/agent/history/" ++ collectionId)]]
    match backend with
    | .threw _ => ⟨200, emptyHistoryBody collectionId, sent⟩
    | .responded ok _status body =>
      if ok then
        match body with
        | .ok data => ⟨200, data, sent⟩
        | .error _ => ⟨200, emptyHistoryBody collectionId, sent⟩
      else
        ⟨200, emptyHistoryBody collectionId, sent⟩

/-! ## Chat messages and their JSON serialization

The `Message` objects of the chat views carry `id`, `role`, `content`, a
`timestamp` (a `Date`, modeled by its millisecond value; its JSON rendering —
the ISO string `toJSON` produces — is modeled by the decimal representation of
that value, an injective stand-in), and an optional `variant`.
`JSON.stringify` omits the `variant` property when it is `undefined`. -/

structure ChatMessage where
  id : String
  role : String
  content : String
  timestamp : Nat
  variant : Option String
  deriving DecidableEq

def escapeJsonChar (c : Char) : List Char :=
  if c = '"' then ['\\', '"']
  else if c = '\\' then ['\\', '\\']
  else if c = '\n' then ['\\', 'n']
  else if c = '\r' then ['\\', 'r']
  else if c = '\t' then ['\\', 't']
  else [c]

def escapeJsonList : List Char → List Char
  | [] => []
  | c :: cs => escapeJsonChar c ++ escapeJsonList cs

def jsonQuote (s : String) : String :=
  "\"" ++ String.mk (escapeJsonList s.data) ++ "\""

/-- Stand-in for the ISO-8601 rendering of a `Date` with millisecond value
`t`; only injectivity of the rendering matters here. -/
def isoOfMillis (t : Nat) : String :=
  toString t

def joinComma : List String → String
  | [] => ""
  | [s] => s
  | s :: rest => s ++ "," ++ joinComma rest

def serializeChatMessage (m : ChatMessage) : String :=
  "\x7b\"id\":" ++ jsonQuote m.id ++
  ",\"role\":" ++ jsonQuote m.role ++
  ",\"content\":" ++ jsonQuote m.content ++
  ",\"timestamp\":" ++ jsonQuote (isoOfMillis m.timestamp) ++
  (match m.variant with
   | some v => ",\"variant\":" ++ jsonQuote v
   | none => "") ++ "\x7d"

/-- `JSON.stringify(messages)`. -/
def serializeMessages (ms : List ChatMessage) : String :=
  "[" ++ joinComma (ms.map serializeChatMessage) ++ "]"

/-- `JSON.stringify` of an array of strings (the `filenames_` values). -/
def serializeStringList (xs : List String) : String :=
  "[" ++ joinComma (xs.map jsonQuote) ++ "]"

/-! ## Persisting the transcript (both chat views)

`useEffect(() => { if (messages.length > 0 && !isLoadingHistory)
localStorage.setItem('chat_' + collectionId, JSON.stringify(messages)) },
[messages, collectionId, isLoadingHistory])` — identical in both
`ChatInterface` variants. -/

def persistMessagesEffect (collectionId : String) (messages : List ChatMessage)
    (isLoadingHistory : Bool) (store : Store) : Store :=
  if messages.length > 0 && !isLoadingHistory then
    store.setItem ("chat_" ++ collectionId) (serializeMessages messages)
  else store

/-! ## The processing-status relay (both chat views)

`isProcessing` starts `true`.  The mount-time check reads
`localStorage.getItem('processing_' + collectionId)` and clears the flag when
the value is `'complete'`; the `storage` listener clears it when the event's
key is `processing_<collectionId>` and its `newValue` is `'complete'`.
A `StorageEvent`'s `key`/`newValue` may be `null`, hence `Option String`. -/

def initialIsProcessing : Bool := true

def checkProcessing (stored : Option String) (isProcessing : Bool) : Bool :=
  if stored = some "complete" then false else isProcessing

def handleProcessingStorageEvent (collectionId : String) (key newValue : Option String)
    (isProcessing : Bool) : Bool :=
  if key = some ("processing_" ++ collectionId) && newValue = some "complete" then
    false
  else isProcessing

inductive ProcessingObservation where
  | mountCheck : Option String → ProcessingObservation
  | storageEvent : Option String → Option String → ProcessingObservation
  deriving DecidableEq

def stepProcessing (collectionId : String) (b : Bool) :
    ProcessingObservation → Bool
  | .mountCheck stored => checkProcessing stored b
  | .storageEvent key newValue =>
      handleProcessingStorageEvent collectionId key newValue b

def runProcessing (collectionId : String) (obs : List ProcessingObservation) : Bool :=
  obs.foldl (stepProcessing collectionId) initialIsProcessing

/-- An observation that carries the value `'complete'` for this collection's
`processing_` key. -/
def observesComplete (collectionId : String) : ProcessingObservation → Bool
  | .mountCheck stored => stored = some "complete"
  | .storageEvent key newValue =>
      key = some ("processing_" ++ collectionId) && newValue = some "complete"

/-! ## Action traces of the component flows

The storage-touching component functions are modeled as the sequence of
actions they perform: storage writes/removes, manually dispatched
`StorageEvent`s, the backend call, and the React state updates. -/

inductive Action where
  | storageSet : String → String → Action
  | storageRemove : String → Action
  | storageDispatch : String → String → Action
  | backendCall : Action
  | setUploading : Bool → Action
  | setUploadError : Option String → Action
  | setProcessing : Bool → Action
  | appendMessage : ChatMessage → Action
  | setMessages : List ChatMessage → Action
  | setFilename : Option String → Action
  | setDocNames : List String → Action
  | setLoadingHistory : Bool → Action
  deriving DecidableEq

def writesOf (tr : List Action) : List (String × String) :=
  tr.filterMap fun a =>
    match a with
    | .storageSet k v => some (k, v)
    | _ => none

def removesOf (tr : List Action) : List String :=
  tr.filterMap fun a =>
    match a with
    | .storageRemove k => some k
    | _ => none

/-! ## uploadAdditionalDocument (first `ChatInterface`) -/

/-- The actions up to and including the backend upload request:
`setIsUploadingDoc(true)`, `setUploadError(null)`, `setIsProcessing(true)`,
write `processing_<cid> = 'in-progress'`, dispatch the matching storage event,
then `fetch('/api/upload')`. -/
def uploadStartActions (cid : String) : List Action :=
  [.setUploading true, .setUploadError none, .setProcessing true,
   .storageSet ("processing_" ++ cid) "in-progress",
   .storageDispatch ("processing_" ++ cid) "in-progress",
   .backendCall]

/-- The `catch` block followed by `finally`: write `'complete'`, dispatch the
matching event, clear the processing flag, surface the error message,
re-enable the input. -/
def uploadFailTail (cid msg : String) : List Action :=
  [.storageSet ("processing_" ++ cid) "complete",
   .storageDispatch ("processing_" ++ cid) "complete",
   .setProcessing false,
   .setUploadError (some msg),
   .setUploading false]

/-- `new Error(data.message || data.detail || 'Failed to upload document.')`,
whose `message` the catch block surfaces. -/
def uploadErrMessage (data : Json) : String :=
  jsToDisplay (some (jsOr (jsField data "message")
    (jsOr (jsField data "detail") (Json.str "Failed to upload document."))))

/-- `data.filename || file.name`. -/
def jsStringOrName (v : Option Json) (fileName : String) : String :=
  match v with
  | some j => if j.truthy then jsToDisplay (some j) else fileName
  | none => fileName

/-- The success path after the backend accepted the upload: record the new
document name (state + `filenames_` write), resolve the primary filename
(state + `filename_` write), write `'complete'` and dispatch it, clear the
processing flag, append the status message, re-enable the input. -/
def uploadSuccessTail (cid : String) (now : Nat) (prevDocs : List String)
    (prevFilename : Option String) (appendedName : String) : List Action :=
  let next := if prevDocs.contains appendedName then prevDocs
              else prevDocs ++ [appendedName]
  let resolved :=
    match prevFilename with
    | some p => if p = "" then appendedName else p
    | none => appendedName
  [.setDocNames next,
   .storageSet ("filenames_" ++ cid) (serializeStringList next),
   .setFilename (some resolved),
   .storageSet ("filename_" ++ cid) resolved,
   .storageSet ("processing_" ++ cid) "complete",
   .storageDispatch ("processing_" ++ cid) "complete",
   .setProcessing false,
   .appendMessage ⟨toString now ++ "-upload-status", "assistant",
     "âœ… Added " ++ appendedName ++ " to this chat. You can ask about it right away.",
     now, some "status"⟩,
   .setUploading false]

def uploadAdditionalDocument (cid fileName : String) (prevDocs : List String)
    (prevFilename : Option String) (now : Nat) (backend : FetchOutcome) :
    List Action :=
  uploadStartActions cid ++
  match backend with
  | .threw msg => uploadFailTail cid msg
  | .responded ok _status body =>
    match body with
    | .error msg => uploadFailTail cid msg
    | .ok data =>
      if ok then
        uploadSuccessTail cid now prevDocs prevFilename
          (jsStringOrName (jsField data "filename") fileName)
      else
        uploadFailTail cid (uploadErrMessage data)

/-! ## loadHistory (both `ChatInterface` variants)

The history loaders read the `filename_`, `filenames_` and `chat_` values,
fetch `/api/chat/history/<cid>`, and write back what the backend reported.
The platform `JSON.parse` is a parameter (`parseStrings` for the string-array
values, `parseMsgs` for the stored transcripts); a `none` result models the
exception `JSON.parse` throws on malformed input. -/

def truthyOptStr : Option String → Bool
  | some s => s ≠ ""
  | none => false

def welcomeMessage (now : Nat) : ChatMessage :=
  ⟨"1", "assistant",
   "Hello! I\x27m ready to answer questions about your uploaded document. What would you like to know?",
   now, none⟩

/-- `data.messages.map((msg, index) => ({ id: `${Date.now()}-${index}`, role:
msg.role, content: msg.content, timestamp: new Date() }))`. -/
def buildBackendMessages (now : Nat) (xs : List Json) : List ChatMessage :=
  xs.enum.map fun p =>
    ⟨toString now ++ "-" ++ toString p.1,
     jsToDisplay (jsField p.2 "role"),
     jsToDisplay (jsField p.2 "content"),
     now, none⟩

/-- `if (!hadStoredMessages) setMessages([welcome])` of the catch and
empty-history branches. -/
def welcomeIfNoStored (hadStored : Bool) (now : Nat) : List Action :=
  if hadStored then [] else [.setMessages [welcomeMessage now]]

/-- The `else if (data.filename)` fallback: a one-element list holding the
backend's `filename` when it is truthy, otherwise empty. -/
def filenameSingleton (data : Json) : List String :=
  match jsField data "filename" with
  | some j => if j.truthy then [jsToDisplay (some j)] else []
  | none => []

/-- `filenamesFromResponse`: `data.filenames` when it is a non-empty array,
otherwise `[data.filename]` when `data.filename` is truthy, otherwise
empty. -/
def filenamesFromResponse (data : Json) : List String :=
  match jsField data "filenames" with
  | some (.arr xs) =>
      if xs.length ≠ 0 then xs.map (fun j => jsToDisplay (some j))
      else filenameSingleton data
  | _ => filenameSingleton data

/-- The body of `if (response.ok)` in the first `ChatInterface`'s
`loadHistory`, given the parsed backend body. -/
def loadHistoryOkActions (cid : String) (hadStored : Bool)
    (now : Nat) (data : Json) : List Action :=
  let fr := filenamesFromResponse data
  let a1 : List Action :=
    if fr ≠ [] then
      [.setDocNames fr, .storageSet ("filenames_" ++ cid) (serializeStringList fr)]
    else []
  let resolved : Option String :=
    match jsField data "filename" with
    | some j => if j.truthy then some (jsToDisplay (some j)) else fr.head?
    | none => fr.head?
  let a2 : List Action :=
    match resolved with
    | some r =>
        if r ≠ "" then [.setFilename (some r), .storageSet ("filename_" ++ cid) r]
        else []
    | none => []
  let a3 : List Action :=
    match jsField data "messages" with
    | some (.arr xs) =>
        if xs.length > 0 then
          [.setMessages (buildBackendMessages now xs),
           .storageSet ("chat_" ++ cid) (serializeMessages (buildBackendMessages now xs))]
        else welcomeIfNoStored hadStored now
    | _ => welcomeIfNoStored hadStored now
  a1 ++ a2 ++ a3

/-- The fetch and everything after it in the first `ChatInterface`'s
`loadHistory`; on a non-ok response the `if (response.ok)` block is skipped
silently. -/
def loadHistoryBackendActions (cid : String) (hadStored : Bool)
    (now : Nat) (backend : FetchOutcome) : List Action :=
  [.backendCall] ++
  match backend with
  | .threw _ => welcomeIfNoStored hadStored now
  | .responded ok _status body =>
    if ok then
      match body with
      | .error _ => welcomeIfNoStored hadStored now
      | .ok data => loadHistoryOkActions cid hadStored now data
    else []

/-- The `storedFilenames` block of the first `ChatInterface`'s `loadHistory`:
parse the stored `filenames_` array (removing the key when parsing throws),
or fall back to the single stored filename. -/
def loadHistoryFilenamesActions (cid : String)
    (storedFilename storedFilenames : Option String)
    (parseStrings : String → Option (List String)) : List Action :=
  if truthyOptStr storedFilenames then
    match parseStrings (storedFilenames.getD "") with
    | none => [.storageRemove ("filenames_" ++ cid)]
    | some names =>
      if names.length ≠ 0 then
        [.setDocNames names] ++
        (if truthyOptStr storedFilename then [] else [.setFilename names.head?])
      else []
  else
    if truthyOptStr storedFilename then [.setDocNames [storedFilename.getD ""]]
    else []

def loadHistory (cid : String) (store : Store)
    (parseStrings : String → Option (List String))
    (parseMsgs : String → Option (List ChatMessage))
    (now : Nat) (backend : FetchOutcome) : List Action :=
  let storedFilename := store.getItem ("filename_" ++ cid)
  let a1 : List Action :=
    if truthyOptStr storedFilename then [.setFilename storedFilename] else []
  let storedFilenames := store.getItem ("filenames_" ++ cid)
  let a2 : List Action :=
    loadHistoryFilenamesActions cid storedFilename storedFilenames parseStrings
  let storedMessages := store.getItem ("chat_" ++ cid)
  let hadStored := truthyOptStr storedMessages
  (a1 ++ a2 ++
    (if hadStored then
      match parseMsgs (storedMessages.getD "") with
      | none => []
      | some msgs =>
          [.setMessages msgs] ++
          loadHistoryBackendActions cid hadStored now backend
     else
      loadHistoryBackendActions cid hadStored now backend)) ++
  [.setLoadingHistory false]

/-- The body of `if (response.ok)` in the second (legacy) `ChatInterface`'s
`loadHistory`: only `filename_` and `chat_` are written. -/
def legacyOkActions (cid : String) (hadStored : Bool) (now : Nat)
    (data : Json) : List Action :=
  (match jsField data "filename" with
   | some j =>
       if j.truthy then
         [.setFilename (some (jsToDisplay (some j))),
          .storageSet ("filename_" ++ cid) (jsToDisplay (some j))]
       else []
   | none => []) ++
  (match jsField data "messages" with
   | some (.arr xs) =>
       if xs.length > 0 then
         [.setMessages (buildBackendMessages now xs),
          .storageSet ("chat_" ++ cid) (serializeMessages (buildBackendMessages now xs))]
       else welcomeIfNoStored hadStored now
   | _ => welcomeIfNoStored hadStored now)

/-- The legacy catch: `if (messages.length === 0) setMessages([welcome])`. -/
def legacyCatchActions (now : Nat) (stateMsgs : List ChatMessage) : List Action :=
  if stateMsgs.length = 0 then [.setMessages [welcomeMessage now]] else []

/-- The second (legacy) `ChatInterface`'s `loadHistory`: only `filename_` and
`chat_` are read and written.  Its catch checks `messages.length === 0` on
the `messages` state the effect closure captured when it was created
(`capturedMessages` — the empty list on mount), not on anything
`setMessages` did meanwhile: even after stored messages were loaded, the
catch still sees the stale empty list and sets the welcome message. -/
def loadHistoryLegacy (cid : String) (store : Store)
    (parseMsgs : String → Option (List ChatMessage))
    (now : Nat) (capturedMessages : List ChatMessage)
    (backend : FetchOutcome) : List Action :=
  let storedFilename := store.getItem ("filename_" ++ cid)
  let a1 : List Action :=
    if truthyOptStr storedFilename then [.setFilename storedFilename] else []
  let storedMessages := store.getItem ("chat_" ++ cid)
  let hadStored := truthyOptStr storedMessages
  (a1 ++
    (if hadStored then
      match parseMsgs (storedMessages.getD "") with
      | none => legacyCatchActions now capturedMessages
      | some msgs =>
          [.setMessages msgs] ++ [.backendCall] ++
          (match backend with
           | .threw _ => legacyCatchActions now capturedMessages
           | .responded ok _status body =>
             if ok then
               match body with
               | .error _ => legacyCatchActions now capturedMessages
               | .ok data => legacyOkActions cid hadStored now data
             else [])
     else
      [.backendCall] ++
      (match backend with
       | .threw _ => legacyCatchActions now capturedMessages
       | .responded ok _status body =>
         if ok then
           match body with
           | .error _ => legacyCatchActions now capturedMessages
           | .ok data => legacyOkActions cid hadStored now data
         else []))) ++
  [.setLoadingHistory false]

/-! ## The initial upload panel (not under `src/`) -/

/-- Modelled from the spec: the `FileUploadPanel` variant the pages mount
(taking `onUploadSuccess`) is not among the source files; per the spec it is
an "upload action" that persists the "processing-status flag" and the
"document filename", "all keyed by an opaque collection identifier issued by
the backend", marking processing in progress and relaying completion through
the storage-event mechanism. -/
def initialUploadPanelWrites (cid fileName : String) : List Action :=
  [.storageSet ("processing_" ++ cid) "in-progress",
   .storageSet ("filename_" ++ cid) fileName,
   .storageSet ("processing_" ++ cid) "complete",
   .storageDispatch ("processing_" ++ cid) "complete"]

/-- The sidebar's delete handler as a trace (for the storage-shape claim). -/
def deleteConversationActions (cid : String) (confirmed : Bool) : List Action :=
  if confirmed then [.storageRemove ("chat_" ++ cid)] else []

/-! ## File-type acceptance

`isAllowedFile`, identical in `FileUploadPanel` and the first
`ChatInterface`: `file.name.split('.').pop()?.toLowerCase() ?? ''` must lie in
`ALLOWED_EXTENSIONS = new Set(['pdf', 'doc', 'docx'])`.  `String.split('.')`
is implemented here on the character list so that concrete evaluations reduce
in the kernel. -/

def splitDots : List Char → List (List Char)
  | [] => [[]]
  | c :: cs =>
      if c = '.' then [] :: splitDots cs
      else
        match splitDots cs with
        | [] => [[c]]
        | h :: t => (c :: h) :: t

def allowedExtensions : List String := ["pdf", "doc", "docx"]

def isAllowedFile (name : String) : Bool :=
  let ext := String.mk (((splitDots name.data).getLast?.getD []).map Char.toLower)
  allowedExtensions.contains ext

/-- Follows the claim's words, not the source: "the lowercased text after the
final '.' in its name" — empty when the name contains no '.', since then no
text stands after a final dot. -/
def claimedExtension (name : String) : String :=
  if '.' ∈ name.data then
    String.mk (((splitDots name.data).getLast?.getD []).map Char.toLower)
  else ""

def unsupportedTypeMsg : String :=
  "Unsupported file type. Please upload PDF or Word documents only."

structure UploadPanelState where
  selectedFile : Option String
  errorMessage : Option String
  apiMessage : Option String
  deriving DecidableEq

/-- `handleFileChange` of `FileUploadPanel`, on the file list the picker
delivered (`event.target.files?.[0] ?? null`). -/
def handleFileChange (files : List String) (s : UploadPanelState) : UploadPanelState :=
  match files.head? with
  | none => { s with selectedFile := none, errorMessage := none }
  | some f =>
      if !isAllowedFile f then
        { s with selectedFile := none, errorMessage := some unsupportedTypeMsg }
      else
        { selectedFile := some f, errorMessage := none, apiMessage := none }

/-- `handleDrop` of `FileUploadPanel`: an empty drop is ignored; a rejected
file only sets the error message (the previous selection stays). -/
def handleDrop (files : List String) (s : UploadPanelState) : UploadPanelState :=
  match files.head? with
  | none => s
  | some f =>
      if !isAllowedFile f then
        { s with errorMessage := some unsupportedTypeMsg }
      else
        { selectedFile := some f, errorMessage := none, apiMessage := none }

/-- `handleContinue` uploads the selected file, if any: the files the panel
ever sends to the backend. -/
def handleContinue (s : UploadPanelState) : List String :=
  match s.selectedFile with
  | none => []
  | some f => [f]

/-- `handleFileInputChange` of the first `ChatInterface` ("Add" button):
returns the upload error it sets (if any) and the files it passes on to
`uploadAdditionalDocument`. -/
def handleFileInputChange (file : Option String) : Option String × List String :=
  match file with
  | none => (none, [])
  | some f =>
      if !isAllowedFile f then (some unsupportedTypeMsg, [])
      else (none, [f])

/-! ## Sidebar: loadConversations

`loadConversations` scans the `chat_`-prefixed keys of local storage, skips
falsy values, parses each transcript (a parse failure rejects the whole
`Promise.all`, so no update happens — the `none` result), asks the backend
for each collection's filename (`oracle`; `none` when the fetch failed, the
response was not ok, or the field was absent), and sorts the entries by
timestamp, newest first. -/

structure SbConversation where
  collectionId : String
  title : String
  lastMessage : String
  timestamp : Nat
  filename : Option String
  deriving DecidableEq

/-- `content.slice(0, n)`. -/
def jsSlice (s : String) (n : Nat) : String :=
  String.mk (s.data.take n)

/-- One conversation entry, from the parsed transcript of `chat_<cid>`:
`title: filename || (firstUserMsg ? firstUserMsg.content.slice(0, 50) + '...'
: 'New Chat')`, `lastMessage: lastMsg?.content.slice(0, 60) || ''`,
`timestamp: new Date(lastMsg?.timestamp || Date.now())`. -/
def mkConversation (now : Nat) (oracle : String → Option String)
    (cid : String) (msgs : List ChatMessage) : SbConversation :=
  let lastMsg := msgs.getLast?
  let firstUserMsg := msgs.find? (fun m => m.role = "user")
  let fname := oracle cid
  let fallbackTitle :=
    match firstUserMsg with
    | some m => jsSlice m.content 50 ++ "..."
    | none => "New Chat"
  { collectionId := cid
    title :=
      match fname with
      | some f => if f = "" then fallbackTitle else f
      | none => fallbackTitle
    lastMessage :=
      match lastMsg with
      | some m => jsSlice m.content 60
      | none => ""
    timestamp :=
      match lastMsg with
      | some m => if m.timestamp = 0 then now else m.timestamp
      | none => now
    filename := fname }

/-- Stable insertion into a descending-by-timestamp list, modeling
`sort((a, b) => b.timestamp.getTime() - a.timestamp.getTime())`. -/
def insertByTs (c : SbConversation) : List SbConversation → List SbConversation
  | [] => [c]
  | d :: ds => if d.timestamp < c.timestamp then c :: d :: ds else d :: insertByTs c ds

def sortByTsDesc (l : List SbConversation) : List SbConversation :=
  l.foldr insertByTs []

/-- `Object.keys(localStorage).filter(key => key.startsWith('chat_'))`,
paired with each key's value; the prefix test is on the character list so
that concrete instances evaluate. -/
def chatKeyValues (store : Store) : List (String × String) :=
  store.filter fun e => "chat_".data.isPrefixOf e.1.data

/-- The per-key callback: `const data = localStorage.getItem(key); if (data)
{ parse, fetch filename, build the entry } return null`.  The outer `none`
models the exception a failing `JSON.parse` raises (which rejects the whole
`Promise.all`); the inner `none` is the callback's `null` result on a falsy
value. -/
def buildConversation (store : Store)
    (parseMsgs : String → Option (List ChatMessage))
    (oracle : String → Option String) (now : Nat) (e : String × String) :
    Option (Option SbConversation) :=
  match store.getItem e.1 with
  | none => some none
  | some v =>
      if v = "" then some none
      else
        match parseMsgs v with
        | none => none
        | some msgs =>
            some (some (mkConversation now oracle
              (String.mk (e.1.data.drop 5)) msgs))

/-- `Promise.all` over the callbacks: one rejection rejects the whole batch. -/
def collectConversations (store : Store)
    (parseMsgs : String → Option (List ChatMessage))
    (oracle : String → Option String) (now : Nat) :
    List (String × String) → Option (List (Option SbConversation))
  | [] => some []
  | e :: es =>
      match buildConversation store parseMsgs oracle now e with
      | none => none
      | some c =>
          match collectConversations store parseMsgs oracle now es with
          | none => none
          | some cs => some (c :: cs)

def loadConversations (store : Store)
    (parseMsgs : String → Option (List ChatMessage))
    (oracle : String → Option String) (now : Nat) :
    Option (List SbConversation) :=
  (collectConversations store parseMsgs oracle now (chatKeyValues store)).map
    fun l => sortByTsDesc (l.filterMap id)

/-! ## Storage-shape predicates (data model of §3)

"conversation transcripts, document filenames, and a processing-status flag,
all keyed by an opaque collection identifier": the four key families and the
value shape each carries. -/

def goodWrite (cid : String) (kv : String × String) : Prop :=
  (kv.1 = "chat_" ++ cid ∧ ∃ ms, kv.2 = serializeMessages ms) ∨
  (kv.1 = "filenames_" ++ cid ∧ ∃ ns, kv.2 = serializeStringList ns) ∨
  kv.1 = "filename_" ++ cid ∨
  (kv.1 = "processing_" ++ cid ∧ (kv.2 = "in-progress" ∨ kv.2 = "complete"))

def goodRemove (cid : String) (k : String) : Prop :=
  k = "chat_" ++ cid ∨ k = "filenames_" ++ cid

/-! # Theorems -/

/-! ## Store lemmas -/

theorem Store.getItem_setItem_self (s : Store) (k v : String) :
    (s.setItem k v).getItem k = some v := by
  induction s with
  | nil => simp [Store.setItem, Store.getItem]
  | cons hd tl ih =>
      obtain ⟨k', v'⟩ := hd
      by_cases h : k' = k <;> simp [Store.setItem, Store.getItem, h, ih]

theorem Store.getItem_setItem_ne (s : Store) (k v : String) (k' : String)
    (h : k' ≠ k) : (s.setItem k v).getItem k' = s.getItem k' := by
  induction s with
  | nil => simp [Store.setItem, Store.getItem, Ne.symm h]
  | cons hd tl ih =>
      obtain ⟨k₀, v₀⟩ := hd
      by_cases hk : k₀ = k
      · subst hk
        simp [Store.setItem, Store.getItem, Ne.symm h, h]
      · by_cases hk' : k₀ = k' <;>
          simp [Store.setItem, Store.getItem, hk, hk', ih, h]

theorem Store.getItem_removeItem_self (s : Store) (k : String) :
    (s.removeItem k).getItem k = none := by
  induction s with
  | nil => simp [Store.removeItem, Store.getItem]
  | cons hd tl ih =>
      obtain ⟨k₀, v₀⟩ := hd
      by_cases hk : k₀ = k <;> simp [Store.removeItem, Store.getItem, hk, ih]

theorem Store.getItem_removeItem_ne (s : Store) (k k' : String) (h : k' ≠ k) :
    (s.removeItem k).getItem k' = s.getItem k' := by
  induction s with
  | nil => simp [Store.removeItem, Store.getItem]
  | cons hd tl ih =>
      obtain ⟨k₀, v₀⟩ := hd
      by_cases hk : k₀ = k
      · subst hk
        simp [Store.removeItem, Store.getItem, Ne.symm h, ih]
      · by_cases hk' : k₀ = k' <;>
          simp [Store.removeItem, Store.getItem, hk, hk', ih, h]

/-! ## Processing-relay lemmas -/

theorem stepProcessing_eq_false (cid : String) (b : Bool) (o : ProcessingObservation)
    (h : stepProcessing cid b o = false) :
    b = false ∨ observesComplete cid o = true := by
  cases o with
  | mountCheck stored =>
      by_cases hs : stored = some "complete"
      · exact Or.inr (by simp [observesComplete, hs])
      · simp [stepProcessing, checkProcessing, hs] at h
        exact Or.inl h
  | storageEvent key newValue =>
      cases hcond : (key = some ("processing_" ++ cid) && newValue = some "complete") with
      | true => exact Or.inr (by simpa [observesComplete] using hcond)
      | false =>
          simp [stepProcessing, handleProcessingStorageEvent, hcond] at h
          exact Or.inl h

theorem stepProcessing_not_complete (cid : String) (b : Bool)
    (o : ProcessingObservation) (h : observesComplete cid o = false) :
    stepProcessing cid b o = b := by
  cases o with
  | mountCheck stored =>
      simp [observesComplete] at h
      simp [stepProcessing, checkProcessing, h]
  | storageEvent key newValue =>
      cases hcond : (key = some ("processing_" ++ cid) && newValue = some "complete") with
      | true =>
          exfalso
          have hoc : observesComplete cid (.storageEvent key newValue) = true := by
            simpa [observesComplete] using hcond
          rw [hoc] at h
          exact Bool.noConfusion h
      | false => simp [stepProcessing, handleProcessingStorageEvent, hcond]

theorem foldl_stepProcessing_eq_false (cid : String) :
    ∀ (obs : List ProcessingObservation) (b : Bool),
      obs.foldl (stepProcessing cid) b = false →
      b = false ∨ ∃ o ∈ obs, observesComplete cid o = true := by
  intro obs
  induction obs with
  | nil => intro b h; exact Or.inl (by simpa using h)
  | cons o rest ih =>
      intro b h
      rcases ih (stepProcessing cid b o) (by simpa using h) with h' | ⟨o', ho', hc⟩
      · rcases stepProcessing_eq_false cid b o h' with hb | hc
        · exact Or.inl hb
        · exact Or.inr ⟨o, by simp, hc⟩
      · exact Or.inr ⟨o', by simp [ho'], hc⟩

theorem foldl_stepProcessing_id (cid : String) :
    ∀ (obs : List ProcessingObservation),
      (∀ o ∈ obs, observesComplete cid o = false) →
      ∀ b, obs.foldl (stepProcessing cid) b = b := by
  intro obs
  induction obs with
  | nil => intro _ b; rfl
  | cons o rest ih =>
      intro h b
      have ho := stepProcessing_not_complete cid b o (h o (by simp))
      simp only [List.foldl_cons, ho]
      exact ih (fun o' ho' => h o' (by simp [ho'])) b

/-- **C1.** In the chat view the processing indicator starts `true` and, under
the mount-time check and the `storage` listener, becomes `false` only upon an
observation carrying the value `'complete'` for the key
`processing_<collectionId>`; a storage event with any other key, or with
`newValue` `'in-progress'`, leaves the indicator unchanged. -/
theorem C1_processing_indicator :
    initialIsProcessing = true ∧
    (∀ (cid : String) (obs : List ProcessingObservation),
        runProcessing cid obs = false →
        ∃ o ∈ obs, observesComplete cid o = true) ∧
    (∀ (cid : String) (obs : List ProcessingObservation),
        (∀ o ∈ obs, observesComplete cid o = false) →
        runProcessing cid obs = true) ∧
    (∀ (cid : String) (key newValue : Option String) (b : Bool),
        key ≠ some ("processing_" ++ cid) ∨ newValue = some "in-progress" →
        handleProcessingStorageEvent cid key newValue b = b) ∧
    (∀ (stored : Option String) (b : Bool),
        stored ≠ some "complete" → checkProcessing stored b = b) := by
  refine ⟨rfl, ?_, ?_, ?_, ?_⟩
  · intro cid obs h
    rcases foldl_stepProcessing_eq_false cid obs initialIsProcessing h with h' | h'
    · exact absurd h' (by simp [initialIsProcessing])
    · exact h'
  · intro cid obs h
    simpa [runProcessing, initialIsProcessing] using
      foldl_stepProcessing_id cid obs h true
  · intro cid key newValue b h
    simp only [handleProcessingStorageEvent]
    rcases h with h | h
    · simp [h]
    · by_cases hk : key = some ("processing_" ++ cid) <;> simp [hk, h]
  · intro stored b h
    simp [checkProcessing, h]

/-- Witness for C1 at a concrete trace: an `'in-progress'` check leaves the
indicator on; a matching `'complete'` storage event is the observation that
dismisses it. -/
theorem C1_processing_indicator_witness :
    runProcessing "c1" [ProcessingObservation.mountCheck (some "in-progress"),
      ProcessingObservation.storageEvent (some "processing_c1") (some "complete")] = false ∧
    ∃ o ∈ [ProcessingObservation.mountCheck (some "in-progress"),
      ProcessingObservation.storageEvent (some "processing_c1") (some "complete")],
      observesComplete "c1" o = true :=
  ⟨by decide, C1_processing_indicator.2.1 "c1" _ (by decide)⟩

/-! ## Transcript persistence -/

/-- **C3.** Once history has loaded, after every change that leaves the
message list non-empty, the value stored at `chat_<collectionId>` is exactly
the JSON serialization of the current message list; the write wholly replaces
whatever value any previous write left there (the store is universally
quantified), so the stored value is the most recent snapshot. -/
theorem C3_transcript_snapshot (cid : String) (messages : List ChatMessage)
    (isLoadingHistory : Bool) (store : Store)
    (hLoaded : isLoadingHistory = false) (hNonEmpty : messages ≠ []) :
    (persistMessagesEffect cid messages isLoadingHistory store).getItem
        ("chat_" ++ cid) = some (serializeMessages messages) := by
  have hlen : messages.length > 0 := List.length_pos.mpr hNonEmpty
  simp only [persistMessagesEffect, hLoaded, Bool.not_false, Bool.and_true]
  rw [if_pos (by simpa using hlen)]
  exact Store.getItem_setItem_self store _ _

/-- Witness for C3: a concrete non-empty transcript replaces a stale stored
value with its serialization. -/
theorem C3_transcript_snapshot_witness :
    (persistMessagesEffect "c3" [⟨"1", "user", "hi", 5, none⟩] false
        [("chat_c3", "stale")]).getItem "chat_c3"
      = some (serializeMessages [⟨"1", "user", "hi", 5, none⟩]) :=
  C3_transcript_snapshot "c3" [⟨"1", "user", "hi", 5, none⟩] false
    [("chat_c3", "stale")] rfl (by decide)

/-! ## Chat-history handler -/

/-- **C8.** For every GET to the chat-history proxy with a non-empty
collection id the response status is 200; on a rejected fetch, a non-ok
backend response, or an unparseable backend body, the body is the fixed
`{ messages: [], collection_id }`, and a failing backend yields a result
identical to an ok backend reporting an empty history with the same body. -/
theorem C8_history_always_ok (cid : String) (backend : FetchOutcome)
    (hcid : cid ≠ "") :
    (historyGET cid backend).status = 200 ∧
    (∀ msg, backend = .threw msg →
        (historyGET cid backend).body = emptyHistoryBody cid) ∧
    (∀ status body, backend = .responded false status body →
        (historyGET cid backend).body = emptyHistoryBody cid) ∧
    (∀ status msg, backend = .responded true status (.error msg) →
        (historyGET cid backend).body = emptyHistoryBody cid) ∧
    (∀ status status' body,
        historyGET cid (.responded false status body) =
          historyGET cid (.responded true status' (.ok (emptyHistoryBody cid)))) := by
  refine ⟨?_, ?_, ?_, ?_, ?_⟩
  · cases backend with
    | threw msg => simp [historyGET, hcid]
    | responded ok status body =>
        cases ok <;> cases body <;> simp [historyGET, hcid]
  · rintro msg rfl; simp [historyGET, hcid]
  · rintro status body rfl; cases body <;> simp [historyGET, hcid]
  · rintro status msg rfl; simp [historyGET, hcid]
  · intro status status' body
    cases body <;> simp [historyGET, hcid, emptyHistoryBody]

/-- Witness for C8 at a concrete failing backend. -/
theorem C8_history_always_ok_witness :
    (historyGET "c8" (.responded false 503 (.ok (.obj [("detail", .str "down")])))).status
      = 200 ∧
    (historyGET "c8" (.responded false 503 (.ok (.obj [("detail", .str "down")])))).body
      = emptyHistoryBody "c8" :=
  ⟨(C8_history_always_ok "c8" _ (by decide)).1,
   (C8_history_always_ok "c8" _ (by decide)).2.2.1 503 _ rfl⟩

/-! ## Deleting a conversation -/

theorem chat_key_ne_filename_key (cid cid' : String) :
    "filename_" ++ cid' ≠ "chat_" ++ cid := by
  intro he
  have := congrArg String.data he
  simp [String.data_append] at this

theorem chat_key_ne_filenames_key (cid cid' : String) :
    "filenames_" ++ cid' ≠ "chat_" ++ cid := by
  intro he
  have := congrArg String.data he
  simp [String.data_append] at this

theorem chat_key_ne_processing_key (cid cid' : String) :
    "processing_" ++ cid' ≠ "chat_" ++ cid := by
  intro he
  have := congrArg String.data he
  simp [String.data_append] at this

theorem chat_key_injective (cid cid' : String) (h : cid' ≠ cid) :
    "chat_" ++ cid' ≠ "chat_" ++ cid := by
  intro he
  apply h
  have := congrArg String.data he
  simp [String.data_append] at this
  exact String.ext this

/-- **C9.** Deleting a conversation (after the user confirms) removes exactly
the key `chat_<collectionId>`: every other key — in particular the
`filename_`, `filenames_` and `processing_` keys of the same collection and
every key of every other collection — is unchanged. -/
theorem C9_delete_conversation_frame (cid : String) (store : Store) :
    (deleteConversation cid true store).getItem ("chat_" ++ cid) = none ∧
    (∀ k, k ≠ "chat_" ++ cid →
        (deleteConversation cid true store).getItem k = store.getItem k) ∧
    (∀ cid',
        (deleteConversation cid true store).getItem ("filename_" ++ cid')
          = store.getItem ("filename_" ++ cid') ∧
        (deleteConversation cid true store).getItem ("filenames_" ++ cid')
          = store.getItem ("filenames_" ++ cid') ∧
        (deleteConversation cid true store).getItem ("processing_" ++ cid')
          = store.getItem ("processing_" ++ cid')) ∧
    (∀ cid', cid' ≠ cid →
        (deleteConversation cid true store).getItem ("chat_" ++ cid')
          = store.getItem ("chat_" ++ cid')) := by
  refine ⟨?_, ?_, ?_, ?_⟩
  · simpa [deleteConversation] using
      Store.getItem_removeItem_self store ("chat_" ++ cid)
  · intro k hk
    simpa [deleteConversation] using
      Store.getItem_removeItem_ne store ("chat_" ++ cid) k hk
  · intro cid'
    exact ⟨by simpa [deleteConversation] using
        Store.getItem_removeItem_ne store _ _ (chat_key_ne_filename_key cid cid'),
      by simpa [deleteConversation] using
        Store.getItem_removeItem_ne store _ _ (chat_key_ne_filenames_key cid cid'),
      by simpa [deleteConversation] using
        Store.getItem_removeItem_ne store _ _ (chat_key_ne_processing_key cid cid')⟩
  · intro cid' h
    simpa [deleteConversation] using
      Store.getItem_removeItem_ne store _ _ (chat_key_injective cid cid' h)

/-- Witness for C9 on a concrete store holding all four key families for two
collections. -/
theorem C9_delete_conversation_frame_witness :
    (deleteConversation "a" true
        [("chat_a", "[]"), ("filename_a", "f.pdf"), ("processing_a", "complete"),
         ("chat_b", "[]")]).getItem ("chat_" ++ "a") = none ∧
    (deleteConversation "a" true
        [("chat_a", "[]"), ("filename_a", "f.pdf"), ("processing_a", "complete"),
         ("chat_b", "[]")]).getItem ("chat_" ++ "b")
      = Store.getItem [("chat_a", "[]"), ("filename_a", "f.pdf"),
          ("processing_a", "complete"), ("chat_b", "[]")] ("chat_" ++ "b") :=
  ⟨(C9_delete_conversation_frame "a" _).1,
   (C9_delete_conversation_frame "a" _).2.2.2 "b" (by decide)⟩

/-! ## uploadAdditionalDocument -/

/-- **C10.** Every additional-document upload writes
`processing_<cid> = 'in-progress'` (and dispatches the matching event) before
the backend request; on every outcome — success or failure — it then writes
`'complete'`, dispatches the matching event, and clears the processing
indicator; the trace ends by re-enabling the input
(`setIsUploadingDoc(false)`), and every failing outcome produces the one
fixed failure trace, varying only in the error message it surfaces, touching
no `filename` keys. -/
theorem C10_upload_processing_lifecycle (cid fileName : String)
    (prevDocs : List String) (prevFilename : Option String) (now : Nat)
    (backend : FetchOutcome) :
    (uploadAdditionalDocument cid fileName prevDocs prevFilename now backend).take 6
      = uploadStartActions cid ∧
    Action.storageSet ("processing_" ++ cid) "complete"
      ∈ uploadAdditionalDocument cid fileName prevDocs prevFilename now backend ∧
    Action.storageDispatch ("processing_" ++ cid) "complete"
      ∈ uploadAdditionalDocument cid fileName prevDocs prevFilename now backend ∧
    Action.setProcessing false
      ∈ uploadAdditionalDocument cid fileName prevDocs prevFilename now backend ∧
    (uploadAdditionalDocument cid fileName prevDocs prevFilename now backend).getLast?
      = some (.setUploading false) ∧
    (∀ msg, backend = .threw msg →
        uploadAdditionalDocument cid fileName prevDocs prevFilename now backend
          = uploadStartActions cid ++ uploadFailTail cid msg) ∧
    (∀ ok status msg, backend = .responded ok status (.error msg) →
        uploadAdditionalDocument cid fileName prevDocs prevFilename now backend
          = uploadStartActions cid ++ uploadFailTail cid msg) ∧
    (∀ status data, backend = .responded false status (.ok data) →
        uploadAdditionalDocument cid fileName prevDocs prevFilename now backend
          = uploadStartActions cid ++ uploadFailTail cid (uploadErrMessage data)) ∧
    (∀ msg kv, kv ∈ writesOf (uploadFailTail cid msg) →
        kv.1 = "processing_" ++ cid) := by
  refine ⟨?_, ?_, ?_, ?_, ?_, ?_, ?_, ?_, ?_⟩
  · cases backend with
    | threw msg =>
        simp [uploadAdditionalDocument, uploadStartActions, uploadFailTail]
    | responded ok status body =>
        cases body <;> cases ok <;>
          simp [uploadAdditionalDocument, uploadStartActions, uploadFailTail,
            uploadSuccessTail]
  · cases backend with
    | threw msg =>
        simp [uploadAdditionalDocument, uploadStartActions, uploadFailTail]
    | responded ok status body =>
        cases body <;> cases ok <;>
          simp [uploadAdditionalDocument, uploadStartActions, uploadFailTail,
            uploadSuccessTail]
  · cases backend with
    | threw msg =>
        simp [uploadAdditionalDocument, uploadStartActions, uploadFailTail]
    | responded ok status body =>
        cases body <;> cases ok <;>
          simp [uploadAdditionalDocument, uploadStartActions, uploadFailTail,
            uploadSuccessTail]
  · cases backend with
    | threw msg =>
        simp [uploadAdditionalDocument, uploadStartActions, uploadFailTail]
    | responded ok status body =>
        cases body <;> cases ok <;>
          simp [uploadAdditionalDocument, uploadStartActions, uploadFailTail,
            uploadSuccessTail]
  · cases backend with
    | threw msg =>
        simp [uploadAdditionalDocument, uploadStartActions, uploadFailTail]
    | responded ok status body =>
        cases body <;> cases ok <;>
          simp [uploadAdditionalDocument, uploadStartActions, uploadFailTail,
            uploadSuccessTail]
  · rintro msg rfl; rfl
  · rintro ok status msg rfl; cases ok <;> rfl
  · rintro status data rfl; rfl
  · intro msg kv hkv
    simp [uploadFailTail, writesOf] at hkv
    simp [hkv]

/-- Witness for C10: a concrete failed upload produces exactly the failure
trace for its error message. -/
theorem C10_upload_processing_lifecycle_witness :
    uploadAdditionalDocument "c10" "f.pdf" [] none 7 (.threw "network down")
      = uploadStartActions "c10" ++ uploadFailTail "c10" "network down" :=
  (C10_upload_processing_lifecycle "c10" "f.pdf" [] none 7
      (.threw "network down")).2.2.2.2.2.1 "network down" rfl

/-! ## Proxy error handling (C2) -/

/-- **C2, counterexample.** The claim fails on the code in four concrete ways:
the chat-history handler answers a non-ok backend (status 500, detail
`"boom"`) with status 200 and the fixed empty body instead of the backend's
status and error text; the chat handler surfaces the fixed fallback although
`detail` is present (the empty string); a non-ok backend response whose body
is not JSON yields status 500, not the backend's 502; and an incoming request
that fails validation issues zero backend requests, not exactly one. -/
theorem C2_counterexample :
    (historyGET "h" (.responded false 500 (.ok (.obj [("detail", .str "boom")]))))
      = ⟨200, emptyHistoryBody "h", [[("url", "/agent/history/h")]]⟩ ∧
    (chatPOST (some (.str "q")) (some (.str "c"))
        (.responded false 502 (.ok (.obj [("detail", .str "")])))).body
      = .obj [("error", .str "Failed to get answer")] ∧
    (chatPOST (some (.str "q")) (some (.str "c"))
        (.responded false 502 (.error "Unexpected token"))).status = 500 ∧
    (chatPOST none (some (.str "c")) (.threw "never")).sent = [] :=
  ⟨rfl, rfl, rfl, rfl⟩

/-- **C2, amended.** For the chat, process and upload proxy handlers, when the
backend responds non-ok with a JSON body, the handler returns the backend's
status code and a body whose user-facing message field is
`detail || <fixed fallback>` — the backend's `detail` whenever it is a
non-empty string, the fixed fallback when `detail` is absent or falsy.  The
chat-history handler instead answers any backend failure with 200 and the
fixed empty body.  Every handler issues at most one backend request per
incoming request (no retry), and exactly one once validation passes. -/
theorem C2_amended_proxy_errors :
    (∀ (q cid : String) (status : Nat) (data : Json), q ≠ "" → cid ≠ "" →
        chatPOST (some (.str q)) (some (.str cid))
            (.responded false status (.ok data))
          = ⟨status,
             .obj [("error", jsOrStr (jsField data "detail") "Failed to get answer")],
             [[("question", q), ("collection_id", cid)]]⟩) ∧
    (∀ (cid : String) (status : Nat) (data : Json), cid ≠ "" →
        processPOST (some (.str cid)) (.responded false status (.ok data))
          = ⟨status,
             .obj [("message", jsOrStr (jsField data "detail") "Failed to process file")],
             [[("collection_id", cid)]]⟩) ∧
    (∀ (f : String) (cidv : Option FormValue) (status : Nat) (data : Json),
        uploadPOST (some (.file f)) cidv (.responded false status (.ok data))
          = ⟨status,
             .obj [("message", jsOrStr (jsField data "detail") "Failed to upload file")],
             [("file", f) ::
               (match validStringField cidv with
                | some cid => [("collection_id", cid)]
                | none => [])]⟩) ∧
    (∀ (data : Json) (d fb : String), jsField data "detail" = some (.str d) →
        d ≠ "" → jsOrStr (jsField data "detail") fb = .str d) ∧
    (∀ (data : Json) (fb : String), jsField data "detail" = none →
        jsOrStr (jsField data "detail") fb = .str fb) ∧
    (∀ (cid : String) (status : Nat) (body : Except String Json), cid ≠ "" →
        historyGET cid (.responded false status body)
          = ⟨200, emptyHistoryBody cid, [[("url", "/agent/history/" ++ cid)]]⟩) ∧
    (∀ question collectionId backend,
        (chatPOST question collectionId backend).sent.length ≤ 1) ∧
    (∀ collectionId backend, (processPOST collectionId backend).sent.length ≤ 1) ∧
    (∀ file collectionId backend,
        (uploadPOST file collectionId backend).sent.length ≤ 1) ∧
    (∀ cid backend, (historyGET cid backend).sent.length ≤ 1) ∧
    (∀ (q cid : String) (backend : FetchOutcome), q ≠ "" → cid ≠ "" →
        (chatPOST (some (.str q)) (some (.str cid)) backend).sent.length = 1) := by
  refine ⟨?_, ?_, ?_, ?_, ?_, ?_, ?_, ?_, ?_, ?_, ?_⟩
  · intro q cid status data hq hcid
    simp [chatPOST, validStringField, hq, hcid]
  · intro cid status data hcid
    simp [processPOST, validStringField, hcid]
  · intro f cidv status data
    simp [uploadPOST, validFileField]
  · intro data d fb hd hne
    simp [jsOrStr, jsOr, hd, Json.truthy, hne]
  · intro data fb hd
    simp [jsOrStr, jsOr, hd]
  · intro cid status body hcid
    cases body <;> simp [historyGET, hcid]
  · intro question collectionId backend
    rcases hv : validStringField question with _ | q
    · simp [chatPOST, hv]
    · rcases hc : validStringField collectionId with _ | c
      · simp [chatPOST, hv, hc]
      · cases backend with
        | threw msg => simp [chatPOST, hv, hc]
        | responded ok status body =>
            cases body <;> cases ok <;> simp [chatPOST, hv, hc]
  · intro collectionId backend
    rcases hc : validStringField collectionId with _ | c
    · simp [processPOST, hc]
    · cases backend with
      | threw msg => simp [processPOST, hc]
      | responded ok status body =>
          cases body <;> cases ok <;> simp [processPOST, hc]
  · intro file collectionId backend
    rcases hf : validFileField file with _ | f
    · simp [uploadPOST, hf]
    · cases backend with
      | threw msg => simp [uploadPOST, hf]
      | responded ok status body =>
          cases body <;> cases ok <;> simp [uploadPOST, hf]
  · intro cid backend
    by_cases hcid : cid = ""
    · simp [historyGET, hcid]
    · cases backend with
      | threw msg => simp [historyGET, hcid]
      | responded ok status body =>
          cases body <;> cases ok <;> simp [historyGET, hcid]
  · intro q cid backend hq hcid
    cases backend with
    | threw msg => simp [chatPOST, validStringField, hq, hcid]
    | responded ok status body =>
        cases body <;> cases ok <;> simp [chatPOST, validStringField, hq, hcid]

/-- Witness for C2 (amended): a concrete non-ok backend answer with a
non-empty detail is passed through with its status by the chat handler. -/
theorem C2_amended_proxy_errors_witness :
    chatPOST (some (.str "why")) (some (.str "c2"))
        (.responded false 404 (.ok (.obj [("detail", .str "no such collection")])))
      = ⟨404,
         .obj [("error", jsOrStr (jsField (.obj [("detail", .str "no such collection")])
            "detail") "Failed to get answer")],
         [[("question", "why"), ("collection_id", "c2")]]⟩ :=
  C2_amended_proxy_errors.1 "why" "c2" 404 _ (by decide) (by decide)

/-! ## Chat-handler validation and forwarding (C5) -/

/-- **C5, counterexample.** The empty string is a present, string-typed
`question`, so the claim as stated requires it to be forwarded to the
backend; the handler instead answers 400 `Question is required` and issues no
backend request. -/
theorem C5_counterexample :
    chatPOST (some (.str "")) (some (.str "c"))
        (.responded true 200 (.ok (.obj [("answer", .str "a"), ("thread_id", .str "t")])))
      = ⟨400, .obj [("error", .str "Question is required")], []⟩ :=
  rfl

/-- **C5, amended.** If `question` is missing, empty, or not a string the
chat handler answers 400 `Question is required` without contacting the
backend; if `collection_id` is missing, empty, or not a string it answers 400
`Collection ID is required` without contacting the backend; otherwise it
forwards exactly the `question` and `collection_id` fields unchanged to the
backend `/agent/ask` endpoint and, on backend success with a JSON body
carrying them, returns a body with exactly the `answer` and `thread_id`
fields copied from the backend's response.  (The legacy variant forwards the
same two fields unchanged, plus `provider` and `model`.) -/
theorem C5_amended_chat_contract :
    (∀ (cid : Option FormValue) (backend : FetchOutcome),
        chatPOST none cid backend
          = ⟨400, .obj [("error", .str "Question is required")], []⟩) ∧
    (∀ (cid : Option FormValue) (backend : FetchOutcome),
        chatPOST (some (.str "")) cid backend
          = ⟨400, .obj [("error", .str "Question is required")], []⟩) ∧
    (∀ (f : String) (cid : Option FormValue) (backend : FetchOutcome),
        chatPOST (some (.file f)) cid backend
          = ⟨400, .obj [("error", .str "Question is required")], []⟩) ∧
    (∀ (q : String) (backend : FetchOutcome), q ≠ "" →
        chatPOST (some (.str q)) none backend
          = ⟨400, .obj [("error", .str "Collection ID is required")], []⟩) ∧
    (∀ (q : String) (backend : FetchOutcome), q ≠ "" →
        chatPOST (some (.str q)) (some (.str "")) backend
          = ⟨400, .obj [("error", .str "Collection ID is required")], []⟩) ∧
    (∀ (q f : String) (backend : FetchOutcome), q ≠ "" →
        chatPOST (some (.str q)) (some (.file f)) backend
          = ⟨400, .obj [("error", .str "Collection ID is required")], []⟩) ∧
    (∀ (q cid : String) (backend : FetchOutcome), q ≠ "" → cid ≠ "" →
        (chatPOST (some (.str q)) (some (.str cid)) backend).sent
          = [[("question", q), ("collection_id", cid)]]) ∧
    (∀ (q cid : String) (status : Nat) (data : Json) (a t : Json),
        q ≠ "" → cid ≠ "" →
        jsField data "answer" = some a → jsField data "thread_id" = some t →
        chatPOST (some (.str q)) (some (.str cid)) (.responded true status (.ok data))
          = ⟨200, .obj [("answer", a), ("thread_id", t)],
             [[("question", q), ("collection_id", cid)]]⟩) ∧
    (∀ (q cid : String) (p m : Option FormValue) (backend : FetchOutcome),
        q ≠ "" → cid ≠ "" →
        (chatLegacyPOST (some (.str q)) (some (.str cid)) p m backend).sent
          = [[("question", q), ("collection_id", cid),
              ("provider", formValueText (formValueOr p "gemini")),
              ("model", formValueText (formValueOr m "gemini-1.5-flash"))]]) := by
  refine ⟨?_, ?_, ?_, ?_, ?_, ?_, ?_, ?_, ?_⟩
  · intro cid backend; rfl
  · intro cid backend; rfl
  · intro f cid backend; rfl
  · intro q backend hq; simp [chatPOST, validStringField, hq]
  · intro q backend hq; simp [chatPOST, validStringField, hq]
  · intro q f backend hq; simp [chatPOST, validStringField, hq]
  · intro q cid backend hq hcid
    cases backend with
    | threw msg => simp [chatPOST, validStringField, hq, hcid]
    | responded ok status body =>
        cases body <;> cases ok <;> simp [chatPOST, validStringField, hq, hcid]
  · intro q cid status data a t hq hcid ha ht
    simp [chatPOST, validStringField, hq, hcid, optField, ha, ht]
  · intro q cid p m backend hq hcid
    cases backend with
    | threw msg => simp [chatLegacyPOST, validStringField, hq, hcid]
    | responded ok status body =>
        cases body <;> cases ok <;>
          simp [chatLegacyPOST, validStringField, hq, hcid]

/-- Witness for C5 (amended): a concrete valid question is forwarded and the
backend's `answer`/`thread_id` come back verbatim. -/
theorem C5_amended_chat_contract_witness :
    chatPOST (some (.str "what")) (some (.str "c5"))
        (.responded true 200
          (.ok (.obj [("answer", .str "42"), ("thread_id", .str "t-1")])))
      = ⟨200, .obj [("answer", .str "42"), ("thread_id", .str "t-1")],
         [[("question", "what"), ("collection_id", "c5")]]⟩ :=
  C5_amended_chat_contract.2.2.2.2.2.2.2.1 "what" "c5" 200 _ _ _
    (by decide) (by decide) rfl rfl

/-! ## File-type acceptance (C7) -/

/-- **C7, counterexample.** The file named `pdf` contains no `'.'`, so the
claim's acceptance criterion — the lowercased text after the final `'.'` —
is empty and not among `pdf`/`doc`/`docx`; yet `isAllowedFile` accepts it,
because `split('.').pop()` of a dotless name is the whole name. -/
theorem C7_counterexample :
    isAllowedFile "pdf" = true ∧
    '.' ∉ ("pdf" : String).data ∧
    claimedExtension "pdf" = "" ∧
    allowedExtensions.contains (claimedExtension "pdf") = false := by
  refine ⟨by decide, by decide, by decide, by decide⟩

theorem splitDots_no_dot (l : List Char) (h : ∀ c ∈ l, c ≠ '.') :
    splitDots l = [l] := by
  induction l with
  | nil => rfl
  | cons c cs ih =>
      have hc : c ≠ '.' := h c (by simp)
      have := ih (fun c' hc' => h c' (by simp [hc']))
      simp [splitDots, hc, this]

/-- **C7, amended.** A file is accepted if and only if its lowercased
extension — the text after the final `'.'` when the name contains one,
otherwise the entire name — is `pdf`, `doc`, or `docx`; a rejected file
never becomes the panel's selection (hence is never uploaded) and is never
handed to `uploadAdditionalDocument`, and every rejection sets the error
message `Unsupported file type. Please upload PDF or Word documents only.` -/
theorem C7_amended_file_acceptance :
    (∀ name : String,
        isAllowedFile name =
          allowedExtensions.contains
            (if '.' ∈ name.data then claimedExtension name
             else String.mk (name.data.map Char.toLower))) ∧
    (∀ (files : List String) (s : UploadPanelState) (f : String),
        files.head? = some f → isAllowedFile f = false →
        (handleFileChange files s).errorMessage = some unsupportedTypeMsg ∧
        (handleFileChange files s).selectedFile = none ∧
        (handleDrop files s).errorMessage = some unsupportedTypeMsg ∧
        (handleDrop files s).selectedFile = s.selectedFile) ∧
    (∀ f : String, isAllowedFile f = false →
        handleFileInputChange (some f) = (some unsupportedTypeMsg, [])) ∧
    (∀ (files : List String) (s : UploadPanelState),
        (∀ g, s.selectedFile = some g → isAllowedFile g = true) →
        (∀ g, (handleFileChange files s).selectedFile = some g →
            isAllowedFile g = true) ∧
        (∀ g, (handleDrop files s).selectedFile = some g →
            isAllowedFile g = true)) ∧
    (∀ (s : UploadPanelState) (f : String),
        handleContinue s = [f] → s.selectedFile = some f) := by
  refine ⟨?_, ?_, ?_, ?_, ?_⟩
  · intro name
    by_cases hdot : '.' ∈ name.data
    · simp [isAllowedFile, claimedExtension, hdot]
    · have hall : ∀ c ∈ name.data, c ≠ '.' := fun c hc hce => hdot (hce ▸ hc)
      simp [isAllowedFile, claimedExtension, hdot,
        splitDots_no_dot name.data hall]
  · intro files s f hf hbad
    refine ⟨?_, ?_, ?_, ?_⟩ <;> simp [handleFileChange, handleDrop, hf, hbad]
  · intro f hbad
    simp [handleFileInputChange, hbad]
  · intro files s hs
    constructor
    · intro g hg
      rcases hf : files.head? with _ | f
      · simp [handleFileChange, hf] at hg
      · by_cases hb : isAllowedFile f = true
        · simp [handleFileChange, hf, hb] at hg
          simpa [hg] using hb
        · simp [handleFileChange, hf, Bool.eq_false_iff.mpr hb] at hg
    · intro g hg
      rcases hf : files.head? with _ | f
      · simp [handleDrop, hf] at hg
        exact hs g hg
      · by_cases hb : isAllowedFile f = true
        · simp [handleDrop, hf, hb] at hg
          simpa [hg] using hb
        · simp [handleDrop, hf, Bool.eq_false_iff.mpr hb] at hg
          exact hs g hg
  · intro s f h
    cases hsel : s.selectedFile with
    | none => simp [handleContinue, hsel] at h
    | some g => simpa [handleContinue, hsel] using h

/-! ## Storage-key discipline (C4) -/

theorem writesOf_append (l1 l2 : List Action) :
    writesOf (l1 ++ l2) = writesOf l1 ++ writesOf l2 := by
  simp [writesOf]

theorem removesOf_append (l1 l2 : List Action) :
    removesOf (l1 ++ l2) = removesOf l1 ++ removesOf l2 := by
  simp [removesOf]

theorem goodWrites_append {cid : String} {l1 l2 : List Action}
    (h1 : ∀ kv ∈ writesOf l1, goodWrite cid kv)
    (h2 : ∀ kv ∈ writesOf l2, goodWrite cid kv) :
    ∀ kv ∈ writesOf (l1 ++ l2), goodWrite cid kv := by
  intro kv h
  rw [writesOf_append] at h
  rcases List.mem_append.mp h with h | h
  exacts [h1 kv h, h2 kv h]

theorem goodWrites_uploadStartActions (cid : String) :
    ∀ kv ∈ writesOf (uploadStartActions cid), goodWrite cid kv := by
  intro kv h
  simp [uploadStartActions, writesOf] at h
  exact Or.inr (Or.inr (Or.inr (by simp [h])))

theorem goodWrites_uploadFailTail (cid msg : String) :
    ∀ kv ∈ writesOf (uploadFailTail cid msg), goodWrite cid kv := by
  intro kv h
  simp [uploadFailTail, writesOf] at h
  exact Or.inr (Or.inr (Or.inr (by simp [h])))

theorem goodWrites_uploadSuccessTail (cid : String) (now : Nat)
    (prevDocs : List String) (prevFilename : Option String)
    (appendedName : String) :
    ∀ kv ∈ writesOf (uploadSuccessTail cid now prevDocs prevFilename appendedName),
      goodWrite cid kv := by
  intro kv h
  simp only [uploadSuccessTail, writesOf, List.filterMap] at h
  simp at h
  rcases h with h | h | h
  · subst h
    exact Or.inr (Or.inl ⟨rfl, _, rfl⟩)
  · subst h
    exact Or.inr (Or.inr (Or.inl rfl))
  · subst h
    exact Or.inr (Or.inr (Or.inr ⟨rfl, Or.inr rfl⟩))

theorem goodWrites_welcomeIfNoStored (cid : String) (hadStored : Bool) (now : Nat) :
    ∀ kv ∈ writesOf (welcomeIfNoStored hadStored now), goodWrite cid kv := by
  cases hadStored <;> simp [welcomeIfNoStored, writesOf]

theorem goodWrites_loadHistoryOkActions (cid : String) (hadStored : Bool)
    (now : Nat) (data : Json) :
    ∀ kv ∈ writesOf (loadHistoryOkActions cid hadStored now data),
      goodWrite cid kv := by
  intro kv h
  simp only [loadHistoryOkActions, writesOf_append, List.mem_append] at h
  rcases h with (h | h) | h
  · split at h
    · simp [writesOf] at h
      subst h
      exact Or.inr (Or.inl ⟨rfl, _, rfl⟩)
    · simp [writesOf] at h
  · split at h
    · split at h
      · simp [writesOf] at h
        subst h
        exact Or.inr (Or.inr (Or.inl rfl))
      · simp [writesOf] at h
    · simp [writesOf] at h
  · split at h
    · split at h
      · simp [writesOf] at h
        subst h
        exact Or.inl ⟨rfl, _, rfl⟩
      · exact goodWrites_welcomeIfNoStored cid hadStored now kv h
    · exact goodWrites_welcomeIfNoStored cid hadStored now kv h

theorem goodWrites_loadHistoryBackendActions (cid : String) (hadStored : Bool)
    (now : Nat) (backend : FetchOutcome) :
    ∀ kv ∈ writesOf (loadHistoryBackendActions cid hadStored now backend),
      goodWrite cid kv := by
  intro kv h
  simp only [loadHistoryBackendActions, writesOf_append, List.mem_append] at h
  rcases h with h | h
  · simp [writesOf] at h
  · cases backend with
    | threw msg => exact goodWrites_welcomeIfNoStored cid hadStored now kv h
    | responded ok status body =>
        cases ok with
        | false => simp [writesOf] at h
        | true =>
            cases body with
            | error msg =>
                exact goodWrites_welcomeIfNoStored cid hadStored now kv
                  (by simpa using h)
            | ok data =>
                exact goodWrites_loadHistoryOkActions cid hadStored now data kv
                  (by simpa using h)

theorem writesOf_loadHistoryFilenamesActions (cid : String)
    (storedFilename storedFilenames : Option String)
    (parseStrings : String → Option (List String)) :
    writesOf (loadHistoryFilenamesActions cid storedFilename storedFilenames
      parseStrings) = [] := by
  unfold loadHistoryFilenamesActions
  split
  · split
    · rfl
    · split
      · rw [writesOf_append]
        split <;> rfl
      · rfl
  · split <;> rfl

theorem removesOf_loadHistoryFilenamesActions (cid : String)
    (storedFilename storedFilenames : Option String)
    (parseStrings : String → Option (List String)) :
    ∀ k ∈ removesOf (loadHistoryFilenamesActions cid storedFilename
        storedFilenames parseStrings), k = "filenames_" ++ cid := by
  intro k h
  unfold loadHistoryFilenamesActions at h
  split at h
  · split at h
    · simpa [removesOf] using h
    · split at h
      · rw [removesOf_append] at h
        rcases List.mem_append.mp h with h | h
        · simp [removesOf] at h
        · split at h <;> simp [removesOf] at h
      · simp [removesOf] at h
  · split at h <;> simp [removesOf] at h

theorem goodWrites_loadHistory (cid : String) (store : Store)
    (parseStrings : String → Option (List String))
    (parseMsgs : String → Option (List ChatMessage))
    (now : Nat) (backend : FetchOutcome) :
    ∀ kv ∈ writesOf (loadHistory cid store parseStrings parseMsgs now backend),
      goodWrite cid kv := by
  intro kv h
  simp only [loadHistory, writesOf_append, List.mem_append] at h
  rcases h with ((h | h) | h) | h
  · split at h <;> simp [writesOf] at h
  · rw [writesOf_loadHistoryFilenamesActions] at h
    simp at h
  · split at h
    · split at h
      · simp [writesOf] at h
      · simp only [writesOf_append, List.mem_append] at h
        rcases h with h | h
        · simp [writesOf] at h
        · exact goodWrites_loadHistoryBackendActions cid _ now backend kv h
    · exact goodWrites_loadHistoryBackendActions cid _ now backend kv h
  · simp [writesOf] at h

theorem removesOf_welcomeIfNoStored (hadStored : Bool) (now : Nat) :
    removesOf (welcomeIfNoStored hadStored now) = [] := by
  cases hadStored <;> rfl

theorem removesOf_loadHistoryOkActions (cid : String) (hadStored : Bool)
    (now : Nat) (data : Json) :
    removesOf (loadHistoryOkActions cid hadStored now data) = [] := by
  unfold loadHistoryOkActions
  simp only [removesOf_append, List.append_eq_nil]
  refine ⟨⟨?_, ?_⟩, ?_⟩
  · split <;> rfl
  · split
    · split <;> rfl
    · rfl
  · split
    · split
      · rfl
      · exact removesOf_welcomeIfNoStored _ _
    · exact removesOf_welcomeIfNoStored _ _

theorem removesOf_loadHistoryBackendActions (cid : String) (hadStored : Bool)
    (now : Nat) (backend : FetchOutcome) :
    removesOf (loadHistoryBackendActions cid hadStored now backend) = [] := by
  unfold loadHistoryBackendActions
  simp only [removesOf_append, List.append_eq_nil]
  refine ⟨rfl, ?_⟩
  cases backend with
  | threw msg => exact removesOf_welcomeIfNoStored _ _
  | responded ok status body =>
      cases ok with
      | false => rfl
      | true =>
          cases body with
          | error msg => exact removesOf_welcomeIfNoStored _ _
          | ok data => exact removesOf_loadHistoryOkActions cid hadStored now data

theorem goodRemoves_loadHistory (cid : String) (store : Store)
    (parseStrings : String → Option (List String))
    (parseMsgs : String → Option (List ChatMessage))
    (now : Nat) (backend : FetchOutcome) :
    ∀ k ∈ removesOf (loadHistory cid store parseStrings parseMsgs now backend),
      goodRemove cid k := by
  intro k h
  simp only [loadHistory, removesOf_append, List.mem_append] at h
  rcases h with ((h | h) | h) | h
  · split at h <;> simp [removesOf] at h
  · exact Or.inr (removesOf_loadHistoryFilenamesActions cid _ _ _ k h)
  · split at h
    · split at h
      · simp [removesOf] at h
      · rw [removesOf_append, List.mem_append] at h
        rcases h with h | h
        · simp [removesOf] at h
        · rw [removesOf_loadHistoryBackendActions] at h
          simp at h
    · rw [removesOf_loadHistoryBackendActions] at h
      simp at h
  · simp [removesOf] at h

theorem goodWrites_legacyOkActions (cid : String) (hadStored : Bool) (now : Nat)
    (data : Json) :
    ∀ kv ∈ writesOf (legacyOkActions cid hadStored now data), goodWrite cid kv := by
  intro kv h
  simp only [legacyOkActions, writesOf_append, List.mem_append] at h
  rcases h with h | h
  · split at h
    · split at h
      · simp [writesOf] at h
        subst h
        exact Or.inr (Or.inr (Or.inl rfl))
      · simp [writesOf] at h
    · simp [writesOf] at h
  · split at h
    · split at h
      · simp [writesOf] at h
        subst h
        exact Or.inl ⟨rfl, _, rfl⟩
      · exact goodWrites_welcomeIfNoStored cid hadStored now kv h
    · exact goodWrites_welcomeIfNoStored cid hadStored now kv h

theorem writesOf_legacyCatchActions (now : Nat) (stateMsgs : List ChatMessage) :
    writesOf (legacyCatchActions now stateMsgs) = [] := by
  unfold legacyCatchActions
  split <;> rfl

theorem removesOf_legacyCatchActions (now : Nat) (stateMsgs : List ChatMessage) :
    removesOf (legacyCatchActions now stateMsgs) = [] := by
  unfold legacyCatchActions
  split <;> rfl

theorem removesOf_legacyOkActions (cid : String) (hadStored : Bool) (now : Nat)
    (data : Json) :
    removesOf (legacyOkActions cid hadStored now data) = [] := by
  unfold legacyOkActions
  simp only [removesOf_append, List.append_eq_nil]
  constructor
  · split
    · split <;> rfl
    · rfl
  · split
    · split
      · rfl
      · exact removesOf_welcomeIfNoStored _ _
    · exact removesOf_welcomeIfNoStored _ _

theorem goodWrites_loadHistoryLegacy (cid : String) (store : Store)
    (parseMsgs : String → Option (List ChatMessage))
    (now : Nat) (capturedMessages : List ChatMessage) (backend : FetchOutcome) :
    ∀ kv ∈ writesOf (loadHistoryLegacy cid store parseMsgs now
        capturedMessages backend), goodWrite cid kv := by
  intro kv h
  simp only [loadHistoryLegacy, writesOf_append, List.mem_append] at h
  rcases h with (h | h) | h
  · split at h <;> simp [writesOf] at h
  · split at h
    · split at h
      · rw [writesOf_legacyCatchActions] at h
        simp at h
      · simp only [writesOf_append, List.mem_append] at h
        rcases h with (h | h) | h
        · simp [writesOf] at h
        · simp [writesOf] at h
        · split at h
          · rw [writesOf_legacyCatchActions] at h
            simp at h
          · split at h
            · split at h
              · rw [writesOf_legacyCatchActions] at h
                simp at h
              · exact goodWrites_legacyOkActions cid _ now _ kv h
            · simp [writesOf] at h
    · simp only [writesOf_append, List.mem_append] at h
      rcases h with h | h
      · simp [writesOf] at h
      · split at h
        · rw [writesOf_legacyCatchActions] at h
          simp at h
        · split at h
          · split at h
            · rw [writesOf_legacyCatchActions] at h
              simp at h
            · exact goodWrites_legacyOkActions cid _ now _ kv h
          · simp [writesOf] at h
  · simp [writesOf] at h

theorem removesOf_loadHistoryLegacy (cid : String) (store : Store)
    (parseMsgs : String → Option (List ChatMessage))
    (now : Nat) (capturedMessages : List ChatMessage) (backend : FetchOutcome) :
    removesOf (loadHistoryLegacy cid store parseMsgs now capturedMessages
      backend) = [] := by
  unfold loadHistoryLegacy
  simp only [removesOf_append, List.append_eq_nil]
  refine ⟨⟨?_, ?_⟩, rfl⟩
  · split <;> rfl
  · split
    · split
      · exact removesOf_legacyCatchActions _ _
      · simp only [removesOf_append, List.append_eq_nil]
        refine ⟨⟨rfl, rfl⟩, ?_⟩
        split
        · exact removesOf_legacyCatchActions _ _
        · split
          · split
            · exact removesOf_legacyCatchActions _ _
            · exact removesOf_legacyOkActions cid _ now _
          · rfl
    · simp only [removesOf_append, List.append_eq_nil]
      refine ⟨rfl, ?_⟩
      split
      · exact removesOf_legacyCatchActions _ _
      · split
        · split
          · exact removesOf_legacyCatchActions _ _
          · exact removesOf_legacyOkActions cid _ now _
        · rfl

/-- **C4.** Every key any storage-touching operation of the repository writes
or removes has one of the four forms `chat_<cid>`, `filename_<cid>`,
`filenames_<cid>`, `processing_<cid>` for its collection id, and every value
written is correspondingly shaped: a JSON-serialized array for `chat_` and
`filenames_`, a plain filename string for `filename_`, and `'in-progress'` or
`'complete'` for `processing_`.  The operations are `uploadAdditionalDocument`
and `loadHistory` of the first chat view, the legacy chat view's history
loader, the persist effect of both chat views, the sidebar's delete handler,
and the (spec-modelled) initial upload panel. -/
theorem C4_storage_key_discipline :
    (∀ (cid fileName : String) (prevDocs : List String)
        (prevFilename : Option String) (now : Nat) (backend : FetchOutcome),
        (∀ kv ∈ writesOf (uploadAdditionalDocument cid fileName prevDocs
            prevFilename now backend), goodWrite cid kv) ∧
        removesOf (uploadAdditionalDocument cid fileName prevDocs
            prevFilename now backend) = []) ∧
    (∀ (cid : String) (store : Store)
        (parseStrings : String → Option (List String))
        (parseMsgs : String → Option (List ChatMessage))
        (now : Nat) (backend : FetchOutcome),
        (∀ kv ∈ writesOf (loadHistory cid store parseStrings parseMsgs now
            backend), goodWrite cid kv) ∧
        (∀ k ∈ removesOf (loadHistory cid store parseStrings parseMsgs now
            backend), goodRemove cid k)) ∧
    (∀ (cid : String) (store : Store)
        (parseMsgs : String → Option (List ChatMessage))
        (now : Nat) (capturedMessages : List ChatMessage) (backend : FetchOutcome),
        (∀ kv ∈ writesOf (loadHistoryLegacy cid store parseMsgs now
            capturedMessages backend), goodWrite cid kv) ∧
        removesOf (loadHistoryLegacy cid store parseMsgs now capturedMessages
            backend) = []) ∧
    (∀ (cid : String) (messages : List ChatMessage) (isLoadingHistory : Bool)
        (store : Store),
        persistMessagesEffect cid messages isLoadingHistory store = store ∨
        persistMessagesEffect cid messages isLoadingHistory store
          = store.setItem ("chat_" ++ cid) (serializeMessages messages)) ∧
    (∀ (cid : String) (confirmed : Bool),
        writesOf (deleteConversationActions cid confirmed) = [] ∧
        ∀ k ∈ removesOf (deleteConversationActions cid confirmed),
          goodRemove cid k) ∧
    (∀ (cid fileName : String),
        ∀ kv ∈ writesOf (initialUploadPanelWrites cid fileName),
          goodWrite cid kv) := by
  refine ⟨?_, ?_, ?_, ?_, ?_, ?_⟩
  · intro cid fileName prevDocs prevFilename now backend
    constructor
    · intro kv h
      unfold uploadAdditionalDocument at h
      rw [writesOf_append, List.mem_append] at h
      rcases h with h | h
      · exact goodWrites_uploadStartActions cid kv h
      · cases backend with
        | threw msg => exact goodWrites_uploadFailTail cid msg kv h
        | responded ok status body =>
            cases body with
            | error msg => exact goodWrites_uploadFailTail cid msg kv (by simpa using h)
            | ok data =>
                cases ok with
                | true =>
                    exact goodWrites_uploadSuccessTail cid now prevDocs prevFilename
                      _ kv (by simpa using h)
                | false =>
                    exact goodWrites_uploadFailTail cid _ kv (by simpa using h)
    · cases backend with
      | threw msg => rfl
      | responded ok status body =>
          cases body <;> cases ok <;> rfl
  · intro cid store parseStrings parseMsgs now backend
    exact ⟨goodWrites_loadHistory cid store parseStrings parseMsgs now backend,
      goodRemoves_loadHistory cid store parseStrings parseMsgs now backend⟩
  · intro cid store parseMsgs now capturedMessages backend
    exact ⟨goodWrites_loadHistoryLegacy cid store parseMsgs now capturedMessages
        backend,
      removesOf_loadHistoryLegacy cid store parseMsgs now capturedMessages backend⟩
  · intro cid messages isLoadingHistory store
    unfold persistMessagesEffect
    split
    · exact Or.inr rfl
    · exact Or.inl rfl
  · intro cid confirmed
    cases confirmed with
    | true =>
        refine ⟨rfl, ?_⟩
        intro k h
        simp [deleteConversationActions, removesOf] at h
        exact Or.inl h
    | false =>
        refine ⟨rfl, ?_⟩
        intro k h
        simp [deleteConversationActions, removesOf] at h
  · intro cid fileName kv h
    simp [initialUploadPanelWrites, writesOf] at h
    rcases h with h | h | h
    · subst h
      exact Or.inr (Or.inr (Or.inr ⟨rfl, Or.inl rfl⟩))
    · subst h
      exact Or.inr (Or.inr (Or.inl rfl))
    · subst h
      exact Or.inr (Or.inr (Or.inr ⟨rfl, Or.inr rfl⟩))

/-- Witness for C4 at a concrete run of `uploadAdditionalDocument`: its
writes, and the shape of each. -/
theorem C4_storage_key_discipline_witness :
    ("processing_" ++ "c4", "in-progress")
        ∈ writesOf (uploadAdditionalDocument "c4" "f.pdf" [] none 3 (.threw "x")) ∧
    goodWrite "c4" ("processing_" ++ "c4", "in-progress") :=
  ⟨by decide,
   (C4_storage_key_discipline.1 "c4" "f.pdf" [] none 3 (.threw "x")).1
     ("processing_" ++ "c4", "in-progress") (by decide)⟩

/-- Witness for C7 (amended): a rejected `.txt` file sets the error message
and clears the selection. -/
theorem C7_amended_file_acceptance_witness :
    (handleFileChange ["notes.txt"] ⟨some "ok.pdf", none, none⟩).errorMessage
        = some unsupportedTypeMsg ∧
    (handleFileChange ["notes.txt"] ⟨some "ok.pdf", none, none⟩).selectedFile = none ∧
    (handleDrop ["notes.txt"] ⟨some "ok.pdf", none, none⟩).errorMessage
        = some unsupportedTypeMsg ∧
    (handleDrop ["notes.txt"] ⟨some "ok.pdf", none, none⟩).selectedFile = some "ok.pdf" :=
  C7_amended_file_acceptance.2.1 ["notes.txt"] ⟨some "ok.pdf", none, none⟩
    "notes.txt" rfl (by decide)

/-! ## Sidebar conversation list (C6) -/

theorem perm_insertByTs (c : SbConversation) (l : List SbConversation) :
    (insertByTs c l).Perm (c :: l) := by
  induction l with
  | nil => simp [insertByTs]
  | cons d ds ih =>
      by_cases h : d.timestamp < c.timestamp
      · simp [insertByTs, h]
      · simp only [insertByTs, if_neg h]
        exact (ih.cons d).trans (List.Perm.swap c d ds)

theorem pairwise_insertByTs (c : SbConversation) (l : List SbConversation)
    (h : List.Pairwise (fun a b => b.timestamp ≤ a.timestamp) l) :
    List.Pairwise (fun a b => b.timestamp ≤ a.timestamp) (insertByTs c l) := by
  induction l with
  | nil => simp [insertByTs]
  | cons d ds ih =>
      rcases List.pairwise_cons.mp h with ⟨hd, hds⟩
      by_cases hlt : d.timestamp < c.timestamp
      · simp only [insertByTs, if_pos hlt]
        refine List.pairwise_cons.mpr ⟨?_, h⟩
        intro b hb
        rcases List.mem_cons.mp hb with rfl | hb
        · exact le_of_lt hlt
        · exact le_trans (hd b hb) (le_of_lt hlt)
      · simp only [insertByTs, if_neg hlt]
        refine List.pairwise_cons.mpr ⟨?_, ih hds⟩
        intro b hb
        have : b ∈ c :: ds := (perm_insertByTs c ds).mem_iff.mp hb
        rcases List.mem_cons.mp this with rfl | hb'
        · exact le_of_not_lt hlt
        · exact hd b hb'

theorem sortByTsDesc_perm (l : List SbConversation) :
    (sortByTsDesc l).Perm l := by
  induction l with
  | nil => simp [sortByTsDesc]
  | cons c cs ih =>
      have : sortByTsDesc (c :: cs) = insertByTs c (sortByTsDesc cs) := rfl
      rw [this]
      exact (perm_insertByTs c (sortByTsDesc cs)).trans (ih.cons c)

theorem sortByTsDesc_pairwise (l : List SbConversation) :
    List.Pairwise (fun a b => b.timestamp ≤ a.timestamp) (sortByTsDesc l) := by
  induction l with
  | nil => simp [sortByTsDesc]
  | cons c cs ih => exact pairwise_insertByTs c (sortByTsDesc cs) ih

/-- The entry built for key-value pair `e` once its transcript parsed. -/
def sbEntry (parseMsgs : String → Option (List ChatMessage))
    (oracle : String → Option String) (now : Nat) (e : String × String) :
    SbConversation :=
  mkConversation now oracle (String.mk (e.1.data.drop 5)) ((parseMsgs e.2).getD [])

theorem collectConversations_eq (store : Store)
    (parseMsgs : String → Option (List ChatMessage))
    (oracle : String → Option String) (now : Nat) :
    ∀ l : List (String × String),
      (∀ e ∈ l, store.getItem e.1 = some e.2 ∧ e.2 ≠ "" ∧
          ∃ ms, parseMsgs e.2 = some ms) →
      collectConversations store parseMsgs oracle now l
        = some (l.map fun e => some (sbEntry parseMsgs oracle now e)) := by
  intro l
  induction l with
  | nil => intro _; rfl
  | cons e es ih =>
      intro h
      obtain ⟨hget, hne, ms, hms⟩ := h e (by simp)
      have hbuild : buildConversation store parseMsgs oracle now e
          = some (some (sbEntry parseMsgs oracle now e)) := by
        simp [buildConversation, hget, hne, hms, sbEntry]
      have hrest := ih fun e' he' => h e' (by simp [he'])
      simp [collectConversations, hbuild, hrest]

theorem filterMap_id_map_some {α β : Type} (l : List α) (f : α → β) :
    (l.map fun e => some (f e)).filterMap id = l.map f := by
  induction l with
  | nil => rfl
  | cons a t ih => simp [ih]

theorem loadConversations_eq (store : Store)
    (parseMsgs : String → Option (List ChatMessage))
    (oracle : String → Option String) (now : Nat)
    (h : ∀ e ∈ chatKeyValues store, store.getItem e.1 = some e.2 ∧ e.2 ≠ "" ∧
        ∃ ms, parseMsgs e.2 = some ms) :
    loadConversations store parseMsgs oracle now
      = some (sortByTsDesc ((chatKeyValues store).map
          (sbEntry parseMsgs oracle now))) := by
  unfold loadConversations
  rw [collectConversations_eq store parseMsgs oracle now (chatKeyValues store) h]
  simp only [Option.map_some']
  rw [filterMap_id_map_some]

/-- **C6, counterexample.** Three concrete refutations of the claim as
stated: a `chat_` key holding the non-null value `""` yields no entry at all
(the callback's `if (data)` check skips falsy values, so the claim's "one
entry per key with a non-null value" fails); a `chat_` key whose value does
not parse as JSON makes the whole refresh reject, producing no list; and a
conversation whose last stored message has timestamp `0` is ordered by the
current time, not by that message's timestamp. -/
theorem C6_counterexample :
    loadConversations [("chat_x", "")] (fun _ => some []) (fun _ => none) 0
      = some [] ∧
    loadConversations [("chat_y", "not json")] (fun _ => none) (fun _ => none) 0
      = none ∧
    loadConversations [("chat_z", "v")]
        (fun _ => some [⟨"1", "user", "hi", 0, none⟩]) (fun _ => none) 77
      = some [⟨"z", "hi...", "hi", 77, none⟩] :=
  ⟨rfl, rfl, rfl⟩

/-- **C6, amended.** Provided every `chat_`-prefixed key holds a non-empty
value that parses as a JSON transcript whose timestamps are positive, the
sidebar list contains exactly one entry per `chat_`-prefixed key (a
permutation of the per-key entries), ordered by entry timestamp newest
first, where an entry's timestamp is the timestamp of its conversation's
last stored message; each entry's title is the backend-reported filename
when one is available (non-empty), otherwise the first 50 characters of the
first user message followed by `'...'`, otherwise `'New Chat'`. -/
theorem C6_amended_sidebar_list (store : Store)
    (parseMsgs : String → Option (List ChatMessage))
    (oracle : String → Option String) (now : Nat)
    (convos : List SbConversation)
    (h : ∀ e ∈ chatKeyValues store, store.getItem e.1 = some e.2 ∧ e.2 ≠ "" ∧
        ∃ ms, parseMsgs e.2 = some ms)
    (hres : loadConversations store parseMsgs oracle now = some convos) :
    convos.Perm ((chatKeyValues store).map (sbEntry parseMsgs oracle now)) ∧
    List.Pairwise (fun a b => b.timestamp ≤ a.timestamp) convos ∧
    (∀ (cid : String) (msgs : List ChatMessage) (f : String),
        oracle cid = some f → f ≠ "" →
        (mkConversation now oracle cid msgs).title = f) ∧
    (∀ (cid : String) (msgs : List ChatMessage) (m : ChatMessage),
        oracle cid = none → msgs.find? (fun m' => m'.role = "user") = some m →
        (mkConversation now oracle cid msgs).title = jsSlice m.content 50 ++ "...") ∧
    (∀ (cid : String) (msgs : List ChatMessage),
        oracle cid = none → msgs.find? (fun m' => m'.role = "user") = none →
        (mkConversation now oracle cid msgs).title = "New Chat") ∧
    (∀ (cid : String) (msgs : List ChatMessage) (m : ChatMessage),
        msgs.getLast? = some m → m.timestamp ≠ 0 →
        (mkConversation now oracle cid msgs).timestamp = m.timestamp) := by
  have heq := loadConversations_eq store parseMsgs oracle now h
  rw [heq] at hres
  have hc : convos = sortByTsDesc ((chatKeyValues store).map
      (sbEntry parseMsgs oracle now)) := by
    exact (Option.some.injEq _ _ ▸ hres).symm
  refine ⟨?_, ?_, ?_, ?_, ?_, ?_⟩
  · rw [hc]
    exact sortByTsDesc_perm _
  · rw [hc]
    exact sortByTsDesc_pairwise _
  · intro cid msgs f hf hfne
    simp [mkConversation, hf, hfne]
  · intro cid msgs m hor hfind
    simp [mkConversation, hor, hfind]
  · intro cid msgs hor hfind
    simp [mkConversation, hor, hfind]
  · intro cid msgs m hlast hts
    simp [mkConversation, hlast, hts]

/-- Witness for C6 (amended): a concrete two-conversation store is listed
once per key, newest first. -/
theorem C6_amended_sidebar_list_witness :
    ([⟨"b", "hey...", "hey", 9, none⟩, ⟨"a", "doc.pdf", "hi", 5, some "doc.pdf"⟩]
        : List SbConversation).Perm
      ((chatKeyValues [("chat_a", "u"), ("filename_a", "doc.pdf"), ("chat_b", "w")]).map
        (sbEntry
          (fun v => if v = "u" then some [⟨"1", "user", "hi", 5, none⟩]
                    else some [⟨"2", "user", "hey", 9, none⟩])
          (fun cid => if cid = "a" then some "doc.pdf" else none) 33)) ∧
    List.Pairwise (fun a b => b.timestamp ≤ a.timestamp)
      ([⟨"b", "hey...", "hey", 9, none⟩, ⟨"a", "doc.pdf", "hi", 5, some "doc.pdf"⟩]
        : List SbConversation) :=
  ⟨(C6_amended_sidebar_list [("chat_a", "u"), ("filename_a", "doc.pdf"), ("chat_b", "w")]
      (fun v => if v = "u" then some [⟨"1", "user", "hi", 5, none⟩]
                else some [⟨"2", "user", "hey", 9, none⟩])
      (fun cid => if cid = "a" then some "doc.pdf" else none) 33
      [⟨"b", "hey...", "hey", 9, none⟩, ⟨"a", "doc.pdf", "hi", 5, some "doc.pdf"⟩]
      (by
        intro e he
        have hk : chatKeyValues
            [("chat_a", "u"), ("filename_a", "doc.pdf"), ("chat_b", "w")]
            = [("chat_a", "u"), ("chat_b", "w")] := rfl
        rw [hk] at he
        simp only [List.mem_cons, List.not_mem_nil, or_false] at he
        rcases he with rfl | rfl
        · exact ⟨rfl, by decide, _, rfl⟩
        · exact ⟨rfl, by decide, _, rfl⟩)
      rfl).1,
   (C6_amended_sidebar_list [("chat_a", "u"), ("filename_a", "doc.pdf"), ("chat_b", "w")]
      (fun v => if v = "u" then some [⟨"1", "user", "hi", 5, none⟩]
                else some [⟨"2", "user", "hey", 9, none⟩])
      (fun cid => if cid = "a" then some "doc.pdf" else none) 33
      [⟨"b", "hey...", "hey", 9, none⟩, ⟨"a", "doc.pdf", "hi", 5, some "doc.pdf"⟩]
      (by
        intro e he
        have hk : chatKeyValues
            [("chat_a", "u"), ("filename_a", "doc.pdf"), ("chat_b", "w")]
            = [("chat_a", "u"), ("chat_b", "w")] := rfl
        rw [hk] at he
        simp only [List.mem_cons, List.not_mem_nil, or_false] at he
        rcases he with rfl | rfl
        · exact ⟨rfl, by decide, _, rfl⟩
        · exact ⟨rfl, by decide, _, rfl⟩)
      rfl).2.1⟩

end QaBot
